import Mathlib

/-!
Verification development for the LLM codegen-enhancement pipeline of this
Playwright fork.

The definitions below are a shallow embedding of the TypeScript sources:
  * packages/playwright-core/src/server/codegen/llmEnhancer.ts
    (the variant with debouncing, pending-request tracking and the
    whole-script safety gate; its module-level `Map`s become fields of an
    explicit state record, and the single-threaded event loop becomes
    explicit step functions on that state),
  * packages/playwright-core/src/server/codegen/llmConfig.ts
    (`defaultLLMConfig`, `mergeConfigs`, `loadLLMConfig`),
  * the `JavaScriptLanguageGenerator.generateAction` enhancement gating and
    `wrapWithStep`.

JS `Map`s are modelled as association lists whose `set` replaces the old
binding, matching `Map.set` semantics.  JS strings are Lean `String`s /
`List Char`.  Millisecond timestamps are `Nat`.  LLM backend calls are
modelled by an oracle outcome `Except Unit String` (a rejected promise or
the response text).
-/

namespace PlaywrightLLM

/-! ## JS string primitives used by the enhancer -/

/-- The backtick character (code point 96), the fence delimiter character. -/
def bq : Char := Char.ofNat 96

/-- JS whitespace for `String.prototype.trim` (the forms that occur here). -/
def jsWS (c : Char) : Bool :=
  c = ' ' || c = '\t' || c = '\n' || c = '\r' || c = '\x0b' || c = '\x0c'

/-- `String.prototype.trim` on a character list. -/
def trimL (l : List Char) : List Char :=
  ((l.dropWhile jsWS).reverse.dropWhile jsWS).reverse

/-- `String.prototype.trim`. -/
def jsTrim (s : String) : String := (trimL s.toList).asString

/-- Does `needle` start `hay`? -/
def seqPrefix : List Char → List Char → Bool
  | [], _ => true
  | _ :: _, [] => false
  | p :: ps, c :: cs => decide (p = c) && seqPrefix ps cs

/-- Strip `needle` from the front of `hay`, `none` when it does not
start there. -/
def stripSeq : List Char → List Char → Option (List Char)
  | [], cs => some cs
  | _ :: _, [] => none
  | p :: ps, c :: cs => if p = c then stripSeq ps cs else none

/-- `haystack.includes(needle)`: does `needle` occur as a contiguous
subsequence? -/
def hasSeq (needle : List Char) : List Char → Bool
  | [] => seqPrefix needle []
  | c :: rest => seqPrefix needle (c :: rest) || hasSeq needle rest

/-- Non-overlapping occurrence count, as computed by
`(script.match(/pat/g) || []).length` for a literal pattern: after a match
the scan resumes past the matched text.  The `skip` argument counts
characters still to be skipped from the current match. -/
def countOccSkip (needle : List Char) : List Char → Nat → Nat
  | [], _ => 0
  | _ :: rest, Nat.succ k => countOccSkip needle rest k
  | c :: rest, 0 =>
    if seqPrefix needle (c :: rest) then
      1 + countOccSkip needle rest (needle.length - 1)
    else
      countOccSkip needle rest 0

/-- Number of non-overlapping occurrences of `needle`. -/
def countOcc (needle : List Char) (hay : List Char) : Nat :=
  countOccSkip needle hay 0

/-- Count of a literal pattern in a script, `(script.match(/g) || []).length`. -/
def countPat (script pat : String) : Nat := countOcc pat.toList script.toList

/-! ## Fenced code block extraction

The enhancer post-processes every LLM response with

  if (enhancedCode.includes('```')) {
    const codeBlockRegex = /```(?:javascript|js)?\n([\s\S]*?)```/;
    const match = enhancedCode.match(codeBlockRegex);
    if (match && match[1]) enhancedCode = match[1].trim();
  }

`findFence` reproduces the regex engine's first-match semantics: starting
positions are tried left to right; at a position the opener must be three
backticks, an optional `javascript` or `js` tag and a newline, and the lazy
group ends at the earliest later triple backtick. -/

/-- The fence delimiter, three backticks. -/
def fence : List Char := [bq, bq, bq]

/-- The `javascript` language tag with its mandatory newline. -/
def javascriptTag : List Char :=
  ['j', 'a', 'v', 'a', 's', 'c', 'r', 'i', 'p', 't', '\n']

/-- The `js` language tag with its mandatory newline. -/
def jsTag : List Char := ['j', 's', '\n']

/-- Match the optional language tag and the mandatory newline of the fence
opener (the regex alternation order: `javascript`, `js`, no tag); `cs` is
the text right after the three backticks.  Returns the text after the
newline when the opener matches. -/
def tryOpenTail (cs : List Char) : Option (List Char) :=
  match stripSeq javascriptTag cs with
  | some rest => some rest
  | none =>
    match stripSeq jsTag cs with
    | some rest => some rest
    | none =>
      match cs with
      | '\n' :: rest => some rest
      | _ => none

/-- Match the whole fence opener `` ``` `` + optional tag + newline at the
start of `cs`, returning the text after it. -/
def openMatch (cs : List Char) : Option (List Char) :=
  match stripSeq fence cs with
  | some afterFence => tryOpenTail afterFence
  | none => none

/-- Content before the first triple backtick, `none` when there is none
(the lazy group followed by the closing fence). -/
def splitAtFence : List Char → Option (List Char)
  | [] => none
  | c :: rest =>
    if seqPrefix fence (c :: rest) then some []
    else (splitAtFence rest).map (fun l => c :: l)

/-- First match of /```(?:javascript|js)?\n([\s\S]*?)```/ : the captured
group, or `none` when the regex does not match.  Starting positions are
tried left to right, and the lazy group ends at the earliest later triple
backtick. -/
def findFence : List Char → Option (List Char)
  | [] => none
  | c :: rest =>
    match openMatch (c :: rest) with
    | some afterOpen =>
      match splitAtFence afterOpen with
      | some content => some content
      | none => findFence rest
    | none => findFence rest

/-- The response post-processing of the enhancer: when the response contains
a triple backtick and the fence regex captures a non-empty group (JS
truthiness of `match[1]`), the trimmed group replaces the response;
otherwise the response is kept as is. -/
def extractEnhancedL (resp : List Char) : List Char :=
  if hasSeq fence resp then
    match findFence resp with
    | some content => if content.isEmpty then resp else trimL content
    | none => resp
  else resp

/-- `extractEnhancedL` on `String`. -/
def extractEnhanced (resp : String) : String :=
  (extractEnhancedL resp.toList).asString

/-! ## Association-list maps (JS `Map` semantics) -/

section AListMap

variable {κ : Type} {ν : Type} [DecidableEq κ]

/-- `map.get(k)` / `map.has(k)`: first binding of the key. -/
def mapFind : List (κ × ν) → κ → Option ν
  | [], _ => none
  | (k, v) :: rest, key => if k = key then some v else mapFind rest key

/-- `map.delete(k)`: drop every binding of the key. -/
def mapErase (l : List (κ × ν)) (key : κ) : List (κ × ν) :=
  l.filter (fun p => !decide (p.1 = key))

/-- `map.set(k, v)`: replace the binding of the key. -/
def mapSet (l : List (κ × ν)) (key : κ) (v : ν) : List (κ × ν) :=
  (key, v) :: mapErase l key

/-- Number of bindings of a key (a JS `Map` always has at most one). -/
def countKey (l : List (κ × ν)) (key : κ) : Nat :=
  (l.filter (fun p => decide (p.1 = key))).length

/-- A well-formed map: at most one binding per key (every JS `Map` is). -/
def MapWF (l : List (κ × ν)) : Prop := ∀ k, countKey l k ≤ 1

end AListMap

/-! ## Data model (packages/recorder/src/actions.d.ts)

Only the fields the enhancement pipeline reads are modelled.  `targetInfo`
in the type declarations carries the tag name, classes and attributes; at
runtime the recorder also attaches a `paths` object (xpath, fullXPath,
jsPath, outerHTML) which `llmEnhancer.ts` reads through `as any`.  Absent
JS object fields are `Option.none`; `extra` stands for any further fields
(element dimensions, input type, …) that the enhancer never names
individually but serializes into the prompt JSON. -/

/-- The `targetInfo.paths` object attached by the recorder. -/
structure ElementPaths where
  xpath : Option String
  fullXPath : Option String
  jsPath : Option String
  outerHTML : Option String
  extra : List (String × String)
deriving DecidableEq, Repr

/-- The `targetInfo` DOM metadata of a recorded action. -/
structure TargetInfo where
  tagName : Option String
  elementClasses : Option String
  elementAttributes : Option String
  paths : Option ElementPaths
  extra : List (String × String)
deriving DecidableEq, Repr

/-- A recorded action (`actions.Action`), restricted to the fields the
enhancer reads: the `name` discriminator, the selector, the optional pixel
`position` and the optional `targetInfo`. -/
structure Action where
  name : String
  selector : String
  position : Option (Int × Int)
  targetInfo : Option TargetInfo
deriving DecidableEq, Repr

/-- `actions.ActionInContext`: the frame description, the optional
human-readable description, and the start timestamp that identifies the
logical action. -/
structure ActionInContext where
  pageAlias : String
  framePath : List String
  description : Option String
  startTime : Nat
deriving DecidableEq, Repr

/-! ## Configuration resolver (llmConfig.ts) -/

/-- The `ollama` block of `LLMConfig`.  JS number fields hold the small
decimal sampling parameters; they are represented in tenths
(`temperature: 0.2` ↦ `temperatureTenths = 2`) so the record stays
decidable, which is faithful for every value the code writes. -/
structure OllamaSettings where
  baseUrl : String
  model : String
  temperatureTenths : Option Nat
  numPredict : Option Nat
  completeScriptTemperatureTenths : Option Nat
deriving DecidableEq, Repr

/-- The `prompts` block of `LLMConfig`. -/
structure PromptSettings where
  systemPrompt : String
  completeScriptSystemPrompt : String
deriving DecidableEq, Repr

/-- The resolved `LLMConfig`. -/
structure LLMConfig where
  ollama : OllamaSettings
  debug : Bool
  prompts : PromptSettings
deriving DecidableEq, Repr

/-- `defaultLLMConfig` of llmConfig.ts (prompt texts abbreviated to their
opening words; the claims never inspect the prompt bodies). -/
def defaultLLMConfig : LLMConfig :=
  { ollama :=
      { baseUrl := "http://localhost:11434"
        model := "llama3"
        temperatureTenths := some 2
        numPredict := some 300
        completeScriptTemperatureTenths := some 7 }
    debug := false
    prompts :=
      { systemPrompt := "You are an expert Playwright test developer."
        completeScriptSystemPrompt :=
          "You are an expert Playwright test automation engineer." } }

/-- A partial `ollama` block from a parsed user config file; `none` fields
are absent keys. -/
structure UserOllama where
  baseUrl : Option String
  model : Option String
  temperatureTenths : Option Nat
  numPredict : Option Nat
  completeScriptTemperatureTenths : Option Nat
deriving DecidableEq, Repr

/-- A partial `prompts` block from a parsed user config file. -/
structure UserPrompts where
  systemPrompt : Option String
  completeScriptSystemPrompt : Option String
deriving DecidableEq, Repr

/-- A parsed user config file (`Partial<LLMConfig>`). -/
structure UserConfig where
  ollama : Option UserOllama
  debug : Option Bool
  prompts : Option UserPrompts
deriving DecidableEq, Repr

/-- A present key overrides, an absent key keeps the current value
(JS object spread `{...current, ...user}` per field). -/
def overrideOpt {α : Type} (user current : Option α) : Option α :=
  match user with
  | some v => some v
  | none => current

/-- `mergeConfigs` of llmConfig.ts: shallow-merge each top-level section of
the user config over the current config. -/
def mergeConfigs (config : LLMConfig) (user : UserConfig) : LLMConfig :=
  let c1 :=
    match user.ollama with
    | some o =>
      { config with
        ollama :=
          { baseUrl := (o.baseUrl).getD config.ollama.baseUrl
            model := (o.model).getD config.ollama.model
            temperatureTenths :=
              overrideOpt o.temperatureTenths config.ollama.temperatureTenths
            numPredict := overrideOpt o.numPredict config.ollama.numPredict
            completeScriptTemperatureTenths :=
              overrideOpt o.completeScriptTemperatureTenths
                config.ollama.completeScriptTemperatureTenths } }
    | none => config
  let c2 :=
    match user.debug with
    | some d => { c1 with debug := d }
    | none => c1
  match user.prompts with
  | some p =>
    { c2 with
      prompts :=
        { systemPrompt := (p.systemPrompt).getD c2.prompts.systemPrompt
          completeScriptSystemPrompt :=
            (p.completeScriptSystemPrompt).getD
              c2.prompts.completeScriptSystemPrompt } }
  | none => c2

/-- The environment variables `loadLLMConfig` reads. -/
structure LLMEnv where
  ollamaBaseUrl : Option String
  ollamaModel : Option String
  pwDebugLLM : Option String
deriving DecidableEq, Repr

/-- `loadLLMConfig` of llmConfig.ts.  `file` is the parsed contents of the
first config file that exists and parses (the explicit `configPath` or one
of the two default locations); `none` covers both "no file found" and
"parse error" (the catch keeps the current config).  The source applies the
environment overrides FIRST and then merges the file over the result. -/
def loadLLMConfig (env : LLMEnv) (file : Option UserConfig) : LLMConfig :=
  let config := defaultLLMConfig
  let config :=
    match env.ollamaBaseUrl with
    | some u => { config with ollama := { config.ollama with baseUrl := u } }
    | none => config
  let config :=
    match env.ollamaModel with
    | some m => { config with ollama := { config.ollama with model := m } }
    | none => config
  let config :=
    if env.pwDebugLLM = some "1" then { config with debug := true } else config
  match file with
  | some userConfig => mergeConfigs config userConfig
  | none => config

/-! ## Action enhancement pipeline (llmEnhancer.ts)

The module-level `Map`s of llmEnhancer.ts become fields of `EnhState`; the
single-threaded event loop becomes explicit steps:

  * `enhanceStep` — the synchronous part of one `enhanceWithLLM(code,
    action, ctx)` call, i.e. everything that runs before control returns to
    the caller.  For a new dispatch this includes the synchronous prefix of
    `performLLMRequest` up to `await model.invoke(...)` (the backend request
    is issued there) and the `pendingRequests.set` after it.
  * `fireTimer` — one `setTimeout` callback
    (`processFillActionIfLast` / `processPressActionIfLast`) up to its own
    backend `await`.
  * `resolveStep` / `rejectStep` — the continuation after the awaited
    backend promise settles with a response / a rejection.

`enhanceWithLLM` wraps its body in `try`/`catch` but returns the request
promise WITHOUT awaiting it, so a backend rejection is never seen by that
`catch`: the caller's promise rejects and the pending entry survives.
`processFillActionIfLast` does `await requestPromise` inside its `try`, so
there the catch does run on rejection.  The step functions reproduce
exactly this asymmetry. -/

/-- `FILL_ACTION_THRESHOLD` (default, env unset): 4000 ms. -/
def FILL_THRESHOLD : Nat := 4000

/-- `PRESS_ACTION_THRESHOLD` (default, env unset): 2000 ms. -/
def PRESS_THRESHOLD : Nat := 2000

/-- The two debounced action kinds. -/
inductive DebKind where
  | fill
  | press
deriving DecidableEq, Repr

/-- Quiet period per debounced kind. -/
def DebKind.threshold : DebKind → Nat
  | .fill => FILL_THRESHOLD
  | .press => PRESS_THRESHOLD

/-- `"fill"` / `"press"`. -/
def DebKind.kindName : DebKind → String
  | .fill => "fill"
  | .press => "press"

/-- `"fill_complete"` / `"press_complete"`. -/
def DebKind.completeName : DebKind → String
  | .fill => "fill_complete"
  | .press => "press_complete"

/-- The action key: `` `${action.name}_${actionContext.startTime}` ``. -/
def actionKeyOf (a : Action) (ctx : ActionInContext) : String :=
  a.name ++ "_" ++ toString ctx.startTime

/-- The debounce element key:
`` `${kind}_${ctx.frame.framePath.join('_')}_${action.selector}` ``. -/
def elementKeyOf (kind : DebKind) (a : Action) (ctx : ActionInContext) : String :=
  kind.kindName ++ "_" ++ String.intercalate "_" ctx.framePath ++ "_" ++ a.selector

/-- The completion action key used by the debounce timers:
`` `${kind}_complete_${entry.actionContext.startTime}` ``. -/
def completeKeyOf (kind : DebKind) (ctx : ActionInContext) : String :=
  kind.completeName ++ "_" ++ toString ctx.startTime

/-- Is a paths object empty for `Object.keys(...).length === 0` after the
four summarized fields were deleted? -/
def ElementPaths.strippedEmpty (p : ElementPaths) : Bool := p.extra.isEmpty

/-- The mutation `enhanceWithLLM` performs on its (aliased!) `action`
argument before dispatching: `delete action['position']`, and — when any of
the four element paths is present — deletion of the summarized
`targetInfo` fields (tagName, elementClasses, elementAttributes and the
four paths), dropping `paths` / `targetInfo` entirely when they end up
empty.  The `paths` deletions reach the original action because
`{...targetInfo}` is a shallow copy sharing the `paths` object. -/
def stripAction (a : Action) : Action :=
  let a1 : Action := { a with position := none }
  match a1.targetInfo with
  | none => a1
  | some ti =>
    let hasPathInfo :=
      match ti.paths with
      | none => false
      | some p =>
        p.xpath.isSome || p.fullXPath.isSome || p.jsPath.isSome ||
          p.outerHTML.isSome
    if hasPathInfo then
      let pathsStripped : Option ElementPaths :=
        match ti.paths with
        | none => none
        | some p =>
          let p' : ElementPaths :=
            { xpath := none, fullXPath := none, jsPath := none,
              outerHTML := none, extra := p.extra }
          if p'.strippedEmpty then none else some p'
      let ti' : TargetInfo :=
        { tagName := none, elementClasses := none, elementAttributes := none,
          paths := pathsStripped, extra := ti.extra }
      let tiEmpty := pathsStripped.isNone && ti.extra.isEmpty
      { a1 with targetInfo := if tiEmpty then none else some ti' }
    else a1

/-- The record the model keeps per issued backend request (the data the
closure of the request holds). -/
structure ReqInfo where
  /-- The cache / pending key of the request. -/
  key : String
  /-- The (stripped / copied) action the prompt was built from. -/
  action : Action
  /-- The action context the request belongs to. -/
  ctx : ActionInContext
  /-- The generated code fragment passed to the prompt. -/
  code : String
  /-- For debounce-completion requests: the kind and the tracker element key
  to clean up when the request settles.  `none` for plain
  `enhanceWithLLM` requests. -/
  cleanup : Option (DebKind × String)
deriving DecidableEq, Repr

instance : DecidableEq (Except Unit String) := fun a b =>
  match a, b with
  | .ok x, .ok y =>
    if h : x = y then isTrue (by rw [h])
    else isFalse (fun hh => h (Except.ok.inj hh))
  | .error x, .error y => isTrue (by cases x; cases y; rfl)
  | .ok _, .error _ => isFalse (fun hh => Except.noConfusion hh)
  | .error _, .ok _ => isFalse (fun hh => Except.noConfusion hh)

/-- The mutable module state of llmEnhancer.ts, plus bookkeeping for the
issued backend requests and their settlement. -/
structure EnhState where
  /-- `processedActionCache`. -/
  cache : List (String × String)
  /-- `pendingRequests` (the promise is identified by its request id). -/
  pending : List (String × Nat)
  /-- `fillActionsTracker`: element key ↦ (timestamp, actionContext). -/
  fillTracker : List (String × (Nat × ActionInContext))
  /-- `pressActionsTracker`. -/
  pressTracker : List (String × (Nat × ActionInContext))
  /-- All backend requests ever issued, by request id. -/
  requests : List (Nat × ReqInfo)
  /-- Settled backend promises: `ok` result or rejection. -/
  settled : List (Nat × Except Unit String)
  /-- Next fresh request id. -/
  nextPid : Nat
  /-- Number of `model.invoke` calls issued. -/
  backendCalls : Nat
deriving DecidableEq, Repr

/-- The state at module load: every map empty. -/
def initState : EnhState :=
  { cache := [], pending := [], fillTracker := [], pressTracker := [],
    requests := [], settled := [], nextPid := 0, backendCalls := 0 }

/-- Tracker of a debounce kind. -/
def EnhState.tracker (st : EnhState) : DebKind → List (String × (Nat × ActionInContext))
  | .fill => st.fillTracker
  | .press => st.pressTracker

/-- Replace the tracker of a debounce kind. -/
def EnhState.setTracker (st : EnhState) :
    DebKind → List (String × (Nat × ActionInContext)) → EnhState
  | .fill, t => { st with fillTracker := t }
  | .press, t => { st with pressTracker := t }

/-- What `enhanceWithLLM` hands back to its caller when it returns. -/
inductive Outcome where
  /-- The returned promise is already resolved with this string
  (debounced kinds and cache hits). -/
  | value (s : String)
  /-- The returned promise adopts the outcome of backend request `pid`
  (a joined pending request or a fresh dispatch). -/
  | pendingOn (pid : Nat)
deriving DecidableEq, Repr

/-- A scheduled `setTimeout` callback with the values its closure captured. -/
structure Timer where
  /-- Absolute fire time: scheduling time + the kind's threshold. -/
  fireAt : Nat
  /-- Which debounced kind scheduled it. -/
  kind : DebKind
  /-- The captured element key. -/
  elementKey : String
  /-- The captured action of the occurrence that scheduled the timer. -/
  action : Action
  /-- The captured generated code of that occurrence. -/
  code : String
deriving DecidableEq, Repr

/-- Result of the synchronous part of one `enhanceWithLLM` call. -/
structure StepResult where
  /-- The state after the synchronous part. -/
  st : EnhState
  /-- What the caller received. -/
  outcome : Outcome
  /-- The caller's `action` object as observable after the call (the
  function mutates it on the dispatch path). -/
  action : Action
  /-- The timers the call scheduled. -/
  timers : List Timer
deriving DecidableEq, Repr

/-- The debounced-kind branch shared by `fill` and `press`: record the
occurrence in the tracker, schedule the delayed check, and return the
original code immediately. -/
def debounceBranch (st : EnhState) (now : Nat) (kind : DebKind)
    (generatedCode : String) (action : Action) (ctx : ActionInContext) :
    StepResult :=
  let ekey := elementKeyOf kind action ctx
  { st := st.setTracker kind (mapSet (st.tracker kind) ekey (now, ctx))
    outcome := .value generatedCode
    action := action
    timers := [{ fireAt := now + kind.threshold, kind := kind,
                 elementKey := ekey, action := action,
                 code := generatedCode }] }

/-- The synchronous part of `enhanceWithLLM(generatedCode, action, ctx)` at
time `now`:

1. fill / press actions: upsert the tracker, `setTimeout` the completion
   check, return the original code;
2. cached action key: return the cached result;
3. pending action key: return the pending promise;
4. otherwise mutate the action (`stripAction`), issue the backend request
   and register the pending entry, returning the fresh promise. -/
def enhanceStep (st : EnhState) (now : Nat) (generatedCode : String)
    (action : Action) (ctx : ActionInContext) : StepResult :=
  if action.name = "fill" then
    debounceBranch st now .fill generatedCode action ctx
  else if action.name = "press" then
    debounceBranch st now .press generatedCode action ctx
  else
    let akey := actionKeyOf action ctx
    match mapFind st.cache akey with
    | some cached =>
      { st := st, outcome := .value cached, action := action, timers := [] }
    | none =>
      match mapFind st.pending akey with
      | some pid =>
        { st := st, outcome := .pendingOn pid, action := action, timers := [] }
      | none =>
        let a' := stripAction action
        let pid := st.nextPid
        let req : ReqInfo :=
          { key := akey, action := a', ctx := ctx, code := generatedCode,
            cleanup := none }
        { st :=
            { st with
              backendCalls := st.backendCalls + 1
              requests := mapSet st.requests pid req
              pending := mapSet st.pending akey pid
              nextPid := pid + 1 }
          outcome := .pendingOn pid
          action := a'
          timers := [] }

/-- One `processFillActionIfLast` / `processPressActionIfLast` timer
callback firing at time `now`, up to its own backend `await`: re-read the
tracker entry; when the quiet period elapsed without a newer occurrence and
the completion key is neither cached nor pending, build the completion
action (a spread copy, renamed and with `position` deleted) and dispatch. -/
def fireTimer (st : EnhState) (now : Nat) (tm : Timer) : EnhState :=
  match mapFind (st.tracker tm.kind) tm.elementKey with
  | none => st
  | some (ts, entryCtx) =>
    if tm.kind.threshold ≤ now - ts then
      let akey := completeKeyOf tm.kind entryCtx
      if (mapFind st.cache akey).isNone && (mapFind st.pending akey).isNone then
        let actionToProcess : Action :=
          { tm.action with name := tm.kind.completeName, position := none }
        let pid := st.nextPid
        let req : ReqInfo :=
          { key := akey, action := actionToProcess, ctx := entryCtx,
            code := tm.code, cleanup := some (tm.kind, tm.elementKey) }
        { st with
          backendCalls := st.backendCalls + 1
          requests := mapSet st.requests pid req
          pending := mapSet st.pending akey pid
          nextPid := pid + 1 }
      else st
    else st

/-- The continuation after backend request `pid` resolves with `response`:
extract the code block, cache it under the request's key, delete the
pending entry and (for a debounce completion) the tracker entry; the
promise settles with the extracted code. -/
def resolveStep (st : EnhState) (pid : Nat) (response : String) : EnhState :=
  match mapFind st.requests pid with
  | none => st
  | some req =>
    let enhanced := extractEnhanced response
    let st' :=
      { st with
        cache := mapSet st.cache req.key enhanced
        pending := mapErase st.pending req.key
        settled := mapSet st.settled pid (.ok enhanced) }
    match req.cleanup with
    | some (kind, ekey) =>
      st'.setTracker kind (mapErase (st'.tracker kind) ekey)
    | none => st'

/-- The continuation after backend request `pid` rejects.  For a plain
`enhanceWithLLM` request NOTHING is cleaned up: the function returned the
request promise without awaiting it, so its `catch` (which would delete the
pending entry) never observes the rejection — the pending entry stays and
the caller's promise rejects.  A debounce-completion request is awaited
inside `try` in the timer callback, so there the `catch` deletes the
pending entry and the tracker entry. -/
def rejectStep (st : EnhState) (pid : Nat) : EnhState :=
  match mapFind st.requests pid with
  | none => st
  | some req =>
    let st' := { st with settled := mapSet st.settled pid (.error ()) }
    match req.cleanup with
    | some (kind, ekey) =>
      let st'' := { st' with pending := mapErase st'.pending req.key }
      st''.setTracker kind (mapErase (st''.tracker kind) ekey)
    | none => st'

/-- The outcome a caller of `enhanceWithLLM` eventually observes:
`some (ok s)` — the promise resolved with `s`; `some (error ())` — the
promise rejected; `none` — still pending. -/
def callerResult (st : EnhState) : Outcome → Option (Except Unit String)
  | .value s => some (.ok s)
  | .pendingOn pid => mapFind st.settled pid

/-! ## Whole-script enhancement gate (`enhanceCompleteScript`, llmEnhancer.ts)

`enhanceCompleteScript` awaits the backend call INSIDE its `try`, so every
rejection lands in its `catch` and the original script is returned.  The
backend oracle is therefore a plain `Except Unit String` argument and the
function is pure. -/

/-- `countPlaywrightOperations`: counts of the characteristic operation
patterns. -/
structure OpCounts where
  clicks : Nat
  fills : Nat
  navigations : Nat
deriving DecidableEq, Repr

/-- `countPlaywrightOperations(script)`: occurrences of `.click(`,
`.fill(`, `.goto(`. -/
def countPlaywrightOperations (script : String) : OpCounts :=
  { clicks := countPat script ".click("
    fills := countPat script ".fill("
    navigations := countPat script ".goto(" }

/-- The safety-check comparison `enhanced < original * 0.9`, written over
naturals as `enhanced * 10 < original * 9`; for every operation count the
JS double computation `original * 0.9` rounds to exactly the rational
`9·original/10` relative to which the integer comparison is taken, so the
two comparisons agree. -/
def opsRegressed (original enhanced : OpCounts) : Bool :=
  decide (enhanced.clicks * 10 < original.clicks * 9) ||
  decide (enhanced.fills * 10 < original.fills * 9) ||
  decide (enhanced.navigations * 10 < original.navigations * 9)

/-- `enhanceCompleteScript(completeScript, actions)` as a function of the
backend oracle: on rejection the catch returns the original script; on a
response, extract the fenced block and accept it only when no operation
count regressed below 90 % of the original. -/
def enhanceCompleteScriptResult (completeScript : String)
    (backend : Except Unit String) : String :=
  match backend with
  | .error _ => completeScript
  | .ok response =>
    let enhancedScript := extractEnhanced response
    if opsRegressed (countPlaywrightOperations completeScript)
        (countPlaywrightOperations enhancedScript) then
      completeScript
    else
      enhancedScript

/-! ## Enhancement gating in `JavaScriptLanguageGenerator.generateAction`

`generateAction` computes the deterministic baseline fragment
(`_generateActionCall`, an external collaborator here, passed in as
`baselineCode`), then — only when the enhancer is enabled AND the action is
not a screenshot — awaits `enhanceWithLLM` inside `try`/`catch`, keeping
the baseline on failure, and finally wraps the code with `wrapWithStep`. -/

/-- `wrapWithStep(description, body)` of the JavaScript generator: wrap in
`test.step` when a non-empty description is present (JS truthiness). -/
def wrapWithStep (description : Option String) (body : String) : String :=
  match description with
  | some d =>
    if d = "" then body
    else
      "await test.step(`" ++ d ++ "`, async () => \x7b\n" ++ body ++ "\n\x7d);"
  | none => body

/-- `await enhanceWithLLM(...)` with the backend oracle: run the
synchronous part; a dispatched request is driven to settlement by the
oracle (`ok` resolves it, `error` rejects it); a join reads the settled
outcome (or stays pending).  Returns the final state and what the `await`
produced. -/
def awaitEnhance (st : EnhState) (now : Nat) (generatedCode : String)
    (action : Action) (ctx : ActionInContext)
    (backend : Except Unit String) :
    EnhState × Option (Except Unit String) :=
  let r := enhanceStep st now generatedCode action ctx
  match r.outcome with
  | .value s => (r.st, some (.ok s))
  | .pendingOn pid =>
    match mapFind r.st.settled pid with
    | some res => (r.st, some res)
    | none =>
      match backend with
      | .ok response =>
        let st' := resolveStep r.st pid response
        (st', mapFind st'.settled pid)
      | .error _ =>
        let st' := rejectStep r.st pid
        (st', mapFind st'.settled pid)

/-- The fragment-level behaviour of
`JavaScriptLanguageGenerator.generateAction` for an ordinary element
action: baseline code, the `useEnhancer && name !== 'screenshot'` gate,
`try { await enhanceWithLLM } catch { keep baseline }`, `wrapWithStep`. -/
def generateActionFragment (useEnhancer : Bool) (st : EnhState) (now : Nat)
    (baselineCode : String) (action : Action) (ctx : ActionInContext)
    (backend : Except Unit String) : EnhState × String :=
  let gated :=
    if useEnhancer && !(action.name == "screenshot") then
      match awaitEnhance st now baselineCode action ctx backend with
      | (st', some (.ok s)) => (st', s)
      | (st', _) => (st', baselineCode)
    else (st, baselineCode)
  (gated.1, wrapWithStep ctx.description gated.2)

/-! ## Debounce scenario runner (for the temporal claim)

A burst of occurrences of one debounced kind followed by silence: first the
occurrences run (each is one synchronous `enhanceWithLLM` call), then the
timers they scheduled fire in order of their fire times.  Interleaving
occurrences strictly before all timer fire times is exactly the
"rapid occurrences within the quiet period, then silence" premise. -/

/-- One occurrence of a debounced action: its call time and the arguments
of the `enhanceWithLLM` call. -/
structure DebOcc where
  t : Nat
  action : Action
  code : String
  ctx : ActionInContext
deriving DecidableEq, Repr

/-- Run the synchronous parts of the occurrence calls in order, collecting
the scheduled timers in chronological order. -/
def runOccs (st : EnhState) : List DebOcc → EnhState × List Timer
  | [] => (st, [])
  | o :: rest =>
    let r := enhanceStep st o.t o.code o.action o.ctx
    let p := runOccs r.st rest
    (p.1, r.timers ++ p.2)

/-- Fire a list of timers in order, each at its scheduled time. -/
def fireAll (st : EnhState) : List Timer → EnhState
  | [] => st
  | tm :: rest => fireAll (fireTimer st tm.fireAt tm) rest

/-- The full scenario: all occurrences, then silence until every scheduled
check fired. -/
def runDebounceScenario (st : EnhState) (occs : List DebOcc) : EnhState :=
  let p := runOccs st occs
  fireAll p.1 p.2

/-- The timer an occurrence schedules (used to state what `runOccs`
collects). -/
def timerOf (kind : DebKind) (o : DebOcc) : Timer :=
  { fireAt := o.t + kind.threshold
    kind := kind
    elementKey := elementKeyOf kind o.action o.ctx
    action := o.action
    code := o.code }


/-! ## Lemmas about the association-list maps -/

section AListMapLemmas

variable {κ : Type} {ν : Type} [DecidableEq κ]

theorem mapFind_cons (p : κ × ν) (rest : List (κ × ν)) (k : κ) :
    mapFind (p :: rest) k = if p.1 = k then some p.2 else mapFind rest k := rfl

theorem mapErase_cons (p : κ × ν) (rest : List (κ × ν)) (k : κ) :
    mapErase (p :: rest) k =
      if p.1 = k then mapErase rest k else p :: mapErase rest k := by
  by_cases hp : p.1 = k <;> simp [mapErase, List.filter_cons, hp]

theorem countKey_cons (p : κ × ν) (rest : List (κ × ν)) (k : κ) :
    countKey (p :: rest) k = (if p.1 = k then 1 else 0) + countKey rest k := by
  by_cases hp : p.1 = k <;> simp [countKey, List.filter_cons, hp, Nat.add_comm]

theorem mapFind_mapSet_same (l : List (κ × ν)) (k : κ) (v : ν) :
    mapFind (mapSet l k v) k = some v := by
  simp [mapSet, mapFind]

theorem mapFind_mapErase_ne (l : List (κ × ν)) (k k' : κ) (h : k ≠ k') :
    mapFind (mapErase l k) k' = mapFind l k' := by
  induction l with
  | nil => rfl
  | cons p rest ih =>
    rw [mapErase_cons]
    by_cases hp : p.1 = k
    · have h2 : ¬ p.1 = k' := fun hh => h (hp.symm.trans hh)
      rw [if_pos hp, ih, mapFind_cons, if_neg h2]
    · rw [if_neg hp, mapFind_cons, mapFind_cons, ih]

theorem mapFind_mapErase_same (l : List (κ × ν)) (k : κ) :
    mapFind (mapErase l k) k = none := by
  induction l with
  | nil => rfl
  | cons p rest ih =>
    rw [mapErase_cons]
    by_cases hp : p.1 = k
    · rw [if_pos hp]; exact ih
    · rw [if_neg hp, mapFind_cons, if_neg hp]; exact ih

theorem mapFind_mapSet_ne (l : List (κ × ν)) (k k' : κ) (v : ν) (h : k ≠ k') :
    mapFind (mapSet l k v) k' = mapFind l k' := by
  rw [mapSet, mapFind_cons, if_neg h]
  exact mapFind_mapErase_ne l k k' h

theorem countKey_mapErase_same (l : List (κ × ν)) (k : κ) :
    countKey (mapErase l k) k = 0 := by
  induction l with
  | nil => rfl
  | cons p rest ih =>
    rw [mapErase_cons]
    by_cases hp : p.1 = k
    · rw [if_pos hp]; exact ih
    · rw [if_neg hp, countKey_cons, if_neg hp, ih]

theorem countKey_mapErase_le (l : List (κ × ν)) (k k' : κ) :
    countKey (mapErase l k) k' ≤ countKey l k' := by
  induction l with
  | nil => exact Nat.le_refl 0
  | cons p rest ih =>
    rw [mapErase_cons, countKey_cons]
    by_cases hp : p.1 = k
    · rw [if_pos hp]
      exact Nat.le_trans ih (Nat.le_add_left _ _)
    · rw [if_neg hp, countKey_cons]
      exact Nat.add_le_add_left ih _

theorem countKey_mapSet_same (l : List (κ × ν)) (k : κ) (v : ν) :
    countKey (mapSet l k v) k = 1 := by
  rw [mapSet, countKey_cons, countKey_mapErase_same, if_pos rfl]

theorem countKey_mapSet_ne (l : List (κ × ν)) (k k' : κ) (v : ν) (h : k ≠ k') :
    countKey (mapSet l k v) k' ≤ countKey l k' := by
  rw [mapSet, countKey_cons, if_neg h, Nat.zero_add]
  exact countKey_mapErase_le l k k'

theorem countKey_eq_zero_of_mapFind_none (l : List (κ × ν)) (k : κ)
    (h : mapFind l k = none) : countKey l k = 0 := by
  induction l with
  | nil => rfl
  | cons p rest ih =>
    rw [countKey_cons]
    by_cases hp : p.1 = k
    · rw [mapFind_cons, if_pos hp] at h
      exact absurd h (by simp)
    · rw [mapFind_cons, if_neg hp] at h
      rw [if_neg hp, ih h]

theorem mapWF_mapSet (l : List (κ × ν)) (k : κ) (v : ν) (h : MapWF l) :
    MapWF (mapSet l k v) := by
  intro k'
  by_cases hk : k = k'
  · rw [← hk, countKey_mapSet_same]
  · exact Nat.le_trans (countKey_mapSet_ne l k k' v hk) (h k')

theorem mapWF_mapErase (l : List (κ × ν)) (k : κ) (h : MapWF l) :
    MapWF (mapErase l k) := fun k' =>
  Nat.le_trans (countKey_mapErase_le l k k') (h k')

end AListMapLemmas

/-! ## Helper lemmas about the enhancement steps -/

theorem enhanceStep_debounce_fill (st : EnhState) (now : Nat) (code : String)
    (action : Action) (ctx : ActionInContext) (h : action.name = "fill") :
    enhanceStep st now code action ctx =
      debounceBranch st now .fill code action ctx := by
  unfold enhanceStep
  rw [if_pos h]

theorem enhanceStep_debounce_press (st : EnhState) (now : Nat) (code : String)
    (action : Action) (ctx : ActionInContext) (h : action.name = "press") :
    enhanceStep st now code action ctx =
      debounceBranch st now .press code action ctx := by
  have hf : ¬ action.name = "fill" := by rw [h]; decide
  unfold enhanceStep
  rw [if_neg hf, if_pos h]

theorem enhanceStep_cached (st : EnhState) (now : Nat) (code : String)
    (action : Action) (ctx : ActionInContext) (cached : String)
    (hfill : ¬ action.name = "fill") (hpress : ¬ action.name = "press")
    (hcache : mapFind st.cache (actionKeyOf action ctx) = some cached) :
    enhanceStep st now code action ctx =
      { st := st, outcome := .value cached, action := action, timers := [] } := by
  simp only [enhanceStep, if_neg hfill, if_neg hpress, hcache]

theorem enhanceStep_join (st : EnhState) (now : Nat) (code : String)
    (action : Action) (ctx : ActionInContext) (pid : Nat)
    (hfill : ¬ action.name = "fill") (hpress : ¬ action.name = "press")
    (hcache : mapFind st.cache (actionKeyOf action ctx) = none)
    (hpending : mapFind st.pending (actionKeyOf action ctx) = some pid) :
    enhanceStep st now code action ctx =
      { st := st, outcome := .pendingOn pid, action := action, timers := [] } := by
  simp only [enhanceStep, if_neg hfill, if_neg hpress, hcache, hpending]

theorem enhanceStep_dispatch (st : EnhState) (now : Nat) (code : String)
    (action : Action) (ctx : ActionInContext)
    (hfill : ¬ action.name = "fill") (hpress : ¬ action.name = "press")
    (hcache : mapFind st.cache (actionKeyOf action ctx) = none)
    (hpending : mapFind st.pending (actionKeyOf action ctx) = none) :
    enhanceStep st now code action ctx =
      { st :=
          { st with
            backendCalls := st.backendCalls + 1
            requests := mapSet st.requests st.nextPid
              { key := actionKeyOf action ctx, action := stripAction action,
                ctx := ctx, code := code, cleanup := none }
            pending := mapSet st.pending (actionKeyOf action ctx) st.nextPid
            nextPid := st.nextPid + 1 }
        outcome := .pendingOn st.nextPid
        action := stripAction action
        timers := [] } := by
  simp only [enhanceStep, if_neg hfill, if_neg hpress, hcache, hpending]

theorem resolveStep_plain (st : EnhState) (pid : Nat) (response : String)
    (req : ReqInfo) (hreq : mapFind st.requests pid = some req)
    (hclean : req.cleanup = none) :
    resolveStep st pid response =
      { st with
        cache := mapSet st.cache req.key (extractEnhanced response)
        pending := mapErase st.pending req.key
        settled := mapSet st.settled pid (.ok (extractEnhanced response)) } := by
  simp only [resolveStep, hreq, hclean]

theorem rejectStep_plain (st : EnhState) (pid : Nat)
    (req : ReqInfo) (hreq : mapFind st.requests pid = some req)
    (hclean : req.cleanup = none) :
    rejectStep st pid =
      { st with settled := mapSet st.settled pid (.error ()) } := by
  simp only [rejectStep, hreq, hclean]

theorem mapErase_mapErase_same {κ ν : Type} [DecidableEq κ]
    (l : List (κ × ν)) (k : κ) :
    mapErase (mapErase l k) k = mapErase l k := by
  induction l with
  | nil => rfl
  | cons p rest ih =>
    rw [mapErase_cons]
    by_cases hp : p.1 = k
    · rw [if_pos hp, ih]
    · rw [if_neg hp, mapErase_cons, if_neg hp, ih]

theorem mapSet_mapSet_same {κ ν : Type} [DecidableEq κ]
    (l : List (κ × ν)) (k : κ) (v v' : ν) :
    mapSet (mapSet l k v) k v' = mapSet l k v' := by
  unfold mapSet
  rw [mapErase_cons, if_pos rfl, mapErase_mapErase_same]

theorem stripAction_name (a : Action) : (stripAction a).name = a.name := by
  rcases a with ⟨n, sel, pos, ti⟩
  cases ti with
  | none => rfl
  | some t =>
    simp only [stripAction]
    split <;> rfl

theorem stripAction_selector (a : Action) :
    (stripAction a).selector = a.selector := by
  rcases a with ⟨n, sel, pos, ti⟩
  cases ti with
  | none => rfl
  | some t =>
    simp only [stripAction]
    split <;> rfl

theorem stripAction_position (a : Action) : (stripAction a).position = none := by
  rcases a with ⟨n, sel, pos, ti⟩
  cases ti with
  | none => rfl
  | some t =>
    simp only [stripAction]
    split <;> rfl

theorem tracker_setTracker_same (st : EnhState) (k : DebKind)
    (t : List (String × (Nat × ActionInContext))) :
    (st.setTracker k t).tracker k = t := by
  cases k <;> rfl

theorem setTracker_setTracker (st : EnhState) (k : DebKind)
    (t t' : List (String × (Nat × ActionInContext))) :
    (st.setTracker k t).setTracker k t' = st.setTracker k t' := by
  cases k <;> rfl

theorem setTracker_cache (st : EnhState) (k : DebKind)
    (t : List (String × (Nat × ActionInContext))) :
    (st.setTracker k t).cache = st.cache := by
  cases k <;> rfl

theorem setTracker_pending (st : EnhState) (k : DebKind)
    (t : List (String × (Nat × ActionInContext))) :
    (st.setTracker k t).pending = st.pending := by
  cases k <;> rfl

theorem setTracker_requests (st : EnhState) (k : DebKind)
    (t : List (String × (Nat × ActionInContext))) :
    (st.setTracker k t).requests = st.requests := by
  cases k <;> rfl

theorem setTracker_nextPid (st : EnhState) (k : DebKind)
    (t : List (String × (Nat × ActionInContext))) :
    (st.setTracker k t).nextPid = st.nextPid := by
  cases k <;> rfl

theorem setTracker_backendCalls (st : EnhState) (k : DebKind)
    (t : List (String × (Nat × ActionInContext))) :
    (st.setTracker k t).backendCalls = st.backendCalls := by
  cases k <;> rfl

theorem enhanceStep_debounce_eq (st : EnhState) (kind : DebKind) (o : DebOcc)
    (h : o.action.name = kind.kindName) :
    enhanceStep st o.t o.code o.action o.ctx =
      { st := st.setTracker kind
          (mapSet (st.tracker kind) (elementKeyOf kind o.action o.ctx)
            (o.t, o.ctx))
        outcome := .value o.code
        action := o.action
        timers := [timerOf kind o] } := by
  cases kind
  · rw [enhanceStep_debounce_fill _ _ _ _ _ h]; rfl
  · rw [enhanceStep_debounce_press _ _ _ _ _ h]; rfl

theorem fireTimer_noop (st : EnhState) (now ts : Nat)
    (entryCtx : ActionInContext) (tm : Timer)
    (htr : mapFind (st.tracker tm.kind) tm.elementKey = some (ts, entryCtx))
    (hlt : now - ts < tm.kind.threshold) :
    fireTimer st now tm = st := by
  simp only [fireTimer, htr]
  rw [if_neg (Nat.not_le.mpr hlt)]

theorem fireTimer_dispatch (st : EnhState) (now ts : Nat)
    (entryCtx : ActionInContext) (tm : Timer)
    (htr : mapFind (st.tracker tm.kind) tm.elementKey = some (ts, entryCtx))
    (hge : tm.kind.threshold ≤ now - ts)
    (hcache : mapFind st.cache (completeKeyOf tm.kind entryCtx) = none)
    (hpending : mapFind st.pending (completeKeyOf tm.kind entryCtx) = none) :
    fireTimer st now tm =
      { st with
        backendCalls := st.backendCalls + 1
        requests := mapSet st.requests st.nextPid
          { key := completeKeyOf tm.kind entryCtx
            action := { tm.action with
                        name := tm.kind.completeName, position := none }
            ctx := entryCtx
            code := tm.code
            cleanup := some (tm.kind, tm.elementKey) }
        pending := mapSet st.pending (completeKeyOf tm.kind entryCtx)
          st.nextPid
        nextPid := st.nextPid + 1 } := by
  simp only [fireTimer, htr, hcache, hpending]
  rw [if_pos hge]
  simp

theorem runOccs_spec (kind : DebKind) (ekey : String) (lastOcc : DebOcc) :
    ∀ occs : List DebOcc,
      (∀ o ∈ occs ++ [lastOcc], o.action.name = kind.kindName) →
      (∀ o ∈ occs ++ [lastOcc], elementKeyOf kind o.action o.ctx = ekey) →
      ∀ st : EnhState,
        runOccs st (occs ++ [lastOcc])
          = (st.setTracker kind
              (mapSet (st.tracker kind) ekey (lastOcc.t, lastOcc.ctx)),
             (occs ++ [lastOcc]).map (timerOf kind)) := by
  intro occs
  induction occs with
  | nil =>
    intro hname hekey st
    have h1 := enhanceStep_debounce_eq st kind lastOcc (hname lastOcc (by simp))
    have h2 := hekey lastOcc (by simp)
    show runOccs st (lastOcc :: []) = _
    simp only [runOccs, h1, h2, List.map_cons, List.map_nil, List.nil_append]
    rfl
  | cons o rest ih =>
    intro hname hekey st
    have hnameo := hname o (by simp)
    have hekeyo := hekey o (by simp)
    have hname' : ∀ x ∈ rest ++ [lastOcc], x.action.name = kind.kindName :=
      fun x hx => hname x (List.mem_cons_of_mem o hx)
    have hekey' : ∀ x ∈ rest ++ [lastOcc],
        elementKeyOf kind x.action x.ctx = ekey :=
      fun x hx => hekey x (List.mem_cons_of_mem o hx)
    have h1 := enhanceStep_debounce_eq st kind o hnameo
    show runOccs st (o :: (rest ++ [lastOcc])) = _
    simp only [runOccs, h1, hekeyo]
    rw [ih hname' hekey']
    rw [tracker_setTracker_same, setTracker_setTracker, mapSet_mapSet_same]
    simp

theorem fireAll_append (A B : List Timer) :
    ∀ st : EnhState, fireAll st (A ++ B) = fireAll (fireAll st A) B := by
  induction A with
  | nil => intro st; rfl
  | cons tm rest ih => intro st; exact ih (fireTimer st tm.fireAt tm)

theorem fireAll_noop (timers : List Timer) :
    ∀ st : EnhState, (∀ tm ∈ timers, fireTimer st tm.fireAt tm = st) →
      fireAll st timers = st := by
  induction timers with
  | nil => intro st _; rfl
  | cons tm rest ih =>
    intro st h
    show fireAll (fireTimer st tm.fireAt tm) rest = st
    rw [h tm (List.mem_cons_self tm rest)]
    exact ih st (fun x hx => h x (List.mem_cons_of_mem tm hx))

/-! ## Lemmas about the fence extraction -/

theorem seqPrefix_fence_ne (c : Char) (l : List Char) (h : ¬ c = bq) :
    seqPrefix fence (c :: l) = false := by
  have hbc : decide (bq = c) = false :=
    decide_eq_false (fun hh => h hh.symm)
  simp [fence, seqPrefix, hbc]

theorem seqPrefix_fence_self (x : List Char) :
    seqPrefix fence (fence ++ x) = true := rfl

theorem hasSeq_of_seqPrefix (needle m : List Char)
    (h : seqPrefix needle m = true) : hasSeq needle m = true := by
  cases m with
  | nil => exact h
  | cons c rest => simp [hasSeq, h]

theorem hasSeq_append (needle pre m : List Char) (h : hasSeq needle m = true) :
    hasSeq needle (pre ++ m) = true := by
  induction pre with
  | nil => exact h
  | cons c pre' ih => simp [hasSeq, ih]

theorem stripSeq_fence_append (x : List Char) :
    stripSeq fence (fence ++ x) = some x := rfl

theorem stripSeq_fence_ne (c : Char) (l : List Char) (h : ¬ c = bq) :
    stripSeq fence (c :: l) = none := by
  have hbc : ¬ bq = c := fun hh => h hh.symm
  simp [fence, stripSeq, hbc]

theorem openMatch_fence (x : List Char) :
    openMatch (fence ++ x) = tryOpenTail x := by
  unfold openMatch
  rw [stripSeq_fence_append]

theorem openMatch_ne (c : Char) (l : List Char) (h : ¬ c = bq) :
    openMatch (c :: l) = none := by
  unfold openMatch
  rw [stripSeq_fence_ne c l h]

theorem tryOpenTail_nl (y : List Char) : tryOpenTail ('\n' :: y) = some y := rfl

theorem tryOpenTail_js (y : List Char) :
    tryOpenTail ('j' :: 's' :: '\n' :: y) = some y := rfl

theorem tryOpenTail_javascript (y : List Char) :
    tryOpenTail ('j' :: 'a' :: 'v' :: 'a' :: 's' :: 'c' :: 'r' :: 'i' :: 'p'
      :: 't' :: '\n' :: y) = some y := rfl

theorem findFence_append_left (pre rest : List Char)
    (h : ∀ c ∈ pre, ¬ c = bq) :
    findFence (pre ++ rest) = findFence rest := by
  induction pre with
  | nil => rfl
  | cons c pre' ih =>
    have hc : ¬ c = bq := h c (List.mem_cons_self c pre')
    have hop := openMatch_ne c (pre' ++ rest) hc
    rw [List.cons_append]
    simp only [findFence, hop]
    exact ih (fun c' h' => h c' (List.mem_cons_of_mem c h'))

theorem splitAtFence_closes (content post : List Char)
    (h : ∀ c ∈ content, ¬ c = bq) :
    splitAtFence (content ++ (fence ++ post)) = some content := by
  induction content with
  | nil => rfl
  | cons c content' ih =>
    have hc : ¬ c = bq := h c (List.mem_cons_self c content')
    have ih' := ih (fun c' h' => h c' (List.mem_cons_of_mem c h'))
    simp [splitAtFence, seqPrefix_fence_ne c _ hc, ih']

theorem findFence_cons_some (c : Char) (rest afterOpen content : List Char)
    (hop : openMatch (c :: rest) = some afterOpen)
    (hsplit : splitAtFence afterOpen = some content) :
    findFence (c :: rest) = some content := by
  simp only [findFence, hop, hsplit]

theorem findFence_decomp (pre tag content post : List Char)
    (hpre : ∀ c ∈ pre, ¬ c = bq)
    (hcontent : ∀ c ∈ content, ¬ c = bq)
    (htag : tag = [] ∨ tag = ['j', 's']
      ∨ tag = ['j', 'a', 'v', 'a', 's', 'c', 'r', 'i', 'p', 't']) :
    findFence (pre ++ (fence ++ (tag ++ '\n' :: (content ++ (fence ++ post)))))
      = some content := by
  rw [findFence_append_left pre _ hpre]
  rcases htag with h | h | h <;> subst h
  · exact findFence_cons_some _ _ _ _
      ((openMatch_fence _).trans (tryOpenTail_nl _))
      (splitAtFence_closes content post hcontent)
  · exact findFence_cons_some _ _ _ _
      ((openMatch_fence _).trans (tryOpenTail_js _))
      (splitAtFence_closes content post hcontent)
  · exact findFence_cons_some _ _ _ _
      ((openMatch_fence _).trans (tryOpenTail_javascript _))
      (splitAtFence_closes content post hcontent)

/-! ## Claim theorems -/

/-- **C1** (code bug at the rejected-backend half of the claim): at the
failing input — a click action dispatched to the backend whose call
rejects — the promise `enhanceWithLLM` handed to its caller settles as a
REJECTION, not as the original generated code: the function returns the
request promise without awaiting it, so its own `catch` (whose comments
promise the fallback) never observes the rejection.  The synchronous-throw
half and `enhanceCompleteScript` (which awaits inside `try`) do behave as
claimed; the third conjunct records the latter. -/
theorem c1_backend_rejection_propagates :
    callerResult
        (rejectStep
          (enhanceStep initState 0 "await page.click();"
            { name := "click", selector := "#submit", position := none,
              targetInfo := none }
            { pageAlias := "page", framePath := [], description := none,
              startTime := 1000 }).st 0)
        (enhanceStep initState 0 "await page.click();"
          { name := "click", selector := "#submit", position := none,
            targetInfo := none }
          { pageAlias := "page", framePath := [], description := none,
            startTime := 1000 }).outcome
      = some (Except.error ())
    ∧ some (Except.error ()) ≠ some (Except.ok "await page.click();")
    ∧ enhanceCompleteScriptResult "the original script" (Except.error ())
      = "the original script" := by
  refine ⟨rfl, by decide, rfl⟩

/-- **C2** (code bug): `loadLLMConfig` applies the environment overrides
FIRST and then merges the config file over the result, so with a file
specifying model "X" and the model environment variable "Y" the resolved
model is "X" — the file wins, contradicting the claim (and the function's
own doc comment "1. Environment variables (highest priority)").  The
defaults half of the claim does hold: a setting absent from both sources
(numPredict, baseUrl here) keeps its hard-coded default. -/
theorem c2_file_wins_over_env :
    (loadLLMConfig
        { ollamaBaseUrl := none, ollamaModel := some "Y", pwDebugLLM := none }
        (some
          { ollama := some
              { baseUrl := none, model := some "X", temperatureTenths := none,
                numPredict := none, completeScriptTemperatureTenths := none }
            debug := none, prompts := none })).ollama.model = "X"
    ∧ ("X" : String) ≠ "Y"
    ∧ (loadLLMConfig
        { ollamaBaseUrl := none, ollamaModel := some "Y", pwDebugLLM := none }
        (some
          { ollama := some
              { baseUrl := none, model := some "X", temperatureTenths := none,
                numPredict := none, completeScriptTemperatureTenths := none }
            debug := none, prompts := none })).ollama.numPredict = some 300
    ∧ (loadLLMConfig
        { ollamaBaseUrl := none, ollamaModel := some "Y", pwDebugLLM := none }
        (some
          { ollama := some
              { baseUrl := none, model := some "X", temperatureTenths := none,
                numPredict := none, completeScriptTemperatureTenths := none }
            debug := none, prompts := none })).ollama.baseUrl
      = "http://localhost:11434" := by
  refine ⟨rfl, by decide, rfl, rfl⟩

/-- **C7** (code bug at the failure half of the claim): on success the
request continuation caches the result and then deletes the pending entry
(first conjunct block), but on failure NOTHING deletes the pending entry:
the `delete` after the `await` is skipped and the outer `catch` (comment:
"Make sure to clean up the pending request on error") never sees the
rejection, so the entry survives the settlement (second conjunct block). -/
theorem c7_pending_cleanup :
    (mapFind
        (resolveStep
          (enhanceStep initState 0 "codeA"
            { name := "click", selector := "#a", position := none,
              targetInfo := none }
            { pageAlias := "page", framePath := [], description := none,
              startTime := 1000 }).st 0 "enhanced-A").cache "click_1000"
        = some "enhanced-A"
      ∧ mapFind
          (resolveStep
            (enhanceStep initState 0 "codeA"
              { name := "click", selector := "#a", position := none,
                targetInfo := none }
              { pageAlias := "page", framePath := [], description := none,
                startTime := 1000 }).st 0 "enhanced-A").pending "click_1000"
        = none)
    ∧ (mapFind
        (rejectStep
          (enhanceStep initState 0 "codeA"
            { name := "click", selector := "#a", position := none,
              targetInfo := none }
            { pageAlias := "page", framePath := [], description := none,
              startTime := 1000 }).st 0).settled 0 = some (Except.error ())
      ∧ mapFind
          (rejectStep
            (enhanceStep initState 0 "codeA"
              { name := "click", selector := "#a", position := none,
                targetInfo := none }
              { pageAlias := "page", framePath := [], description := none,
                startTime := 1000 }).st 0).pending "click_1000" = some 0) := by
  refine ⟨⟨rfl, rfl⟩, rfl, rfl⟩

/-- **C5**: the whole-script safety gate returns the original script
whenever any monitored operation count of the rewrite falls strictly below
90 % of the original count, and accepts the rewrite (the extracted fenced
code) when every count is at least 90 %.  The comparisons are the source's
`enhanced < original * 0.9` over integer counts. -/
theorem c5_safety_gate (completeScript response : String) :
    ((countPlaywrightOperations (extractEnhanced response)).clicks * 10
          < (countPlaywrightOperations completeScript).clicks * 9
        ∨ (countPlaywrightOperations (extractEnhanced response)).fills * 10
          < (countPlaywrightOperations completeScript).fills * 9
        ∨ (countPlaywrightOperations (extractEnhanced response)).navigations * 10
          < (countPlaywrightOperations completeScript).navigations * 9 →
      enhanceCompleteScriptResult completeScript (Except.ok response)
        = completeScript)
    ∧ ((countPlaywrightOperations completeScript).clicks * 9
          ≤ (countPlaywrightOperations (extractEnhanced response)).clicks * 10 →
       (countPlaywrightOperations completeScript).fills * 9
          ≤ (countPlaywrightOperations (extractEnhanced response)).fills * 10 →
       (countPlaywrightOperations completeScript).navigations * 9
          ≤ (countPlaywrightOperations (extractEnhanced response)).navigations * 10 →
      enhanceCompleteScriptResult completeScript (Except.ok response)
        = extractEnhanced response) := by
  constructor
  · intro h
    have hreg : opsRegressed (countPlaywrightOperations completeScript)
        (countPlaywrightOperations (extractEnhanced response)) = true := by
      unfold opsRegressed
      rcases h with h | h | h <;> simp [h]
    simp [enhanceCompleteScriptResult, hreg]
  · intro h1 h2 h3
    have hreg : opsRegressed (countPlaywrightOperations completeScript)
        (countPlaywrightOperations (extractEnhanced response)) = false := by
      unfold opsRegressed
      simp only [Bool.or_eq_false_iff, decide_eq_false_iff_not, Nat.not_lt]
      exact ⟨⟨h1, h2⟩, h3⟩
    simp [enhanceCompleteScriptResult, hreg]

/-- Witness for C5: an original with 10 click-equivalents against a rewrite
with 8 (80 % < 90 %) is rejected, against a rewrite with 9 (90 %) is
accepted. -/
theorem c5_safety_gate_witness :
    enhanceCompleteScriptResult
        ".click(.click(.click(.click(.click(.click(.click(.click(.click(.click("
        (Except.ok ".click(.click(.click(.click(.click(.click(.click(.click(")
      = ".click(.click(.click(.click(.click(.click(.click(.click(.click(.click("
    ∧ enhanceCompleteScriptResult
        ".click(.click(.click(.click(.click(.click(.click(.click(.click(.click("
        (Except.ok ".click(.click(.click(.click(.click(.click(.click(.click(.click(")
      = extractEnhanced
          ".click(.click(.click(.click(.click(.click(.click(.click(.click(" := by
  constructor
  · exact (c5_safety_gate
      ".click(.click(.click(.click(.click(.click(.click(.click(.click(.click("
      ".click(.click(.click(.click(.click(.click(.click(.click(").1
      (Or.inl (by decide))
  · exact (c5_safety_gate
      ".click(.click(.click(.click(.click(.click(.click(.click(.click(.click("
      ".click(.click(.click(.click(.click(.click(.click(.click(.click(").2
      (by decide) (by decide) (by decide)

/-- **C10**: `generateAction` never routes a screenshot action through the
enhancement pipeline: whatever the enhancer flag, the backend oracle and
the pipeline state, the emitted fragment is the wrapped deterministic
baseline code and the pipeline state is untouched. -/
theorem c10_screenshot_not_enhanced (useEnhancer : Bool) (st : EnhState)
    (now : Nat) (baselineCode : String) (action : Action)
    (ctx : ActionInContext) (backend : Except Unit String)
    (h : action.name = "screenshot") :
    generateActionFragment useEnhancer st now baselineCode action ctx backend
      = (st, wrapWithStep ctx.description baselineCode) := by
  unfold generateActionFragment
  simp [h]

/-- Witness for C10: a concrete screenshot action with enhancement enabled
and a backend that would answer; the fragment is the baseline wrapped in
its step. -/
theorem c10_screenshot_not_enhanced_witness :
    generateActionFragment true initState 0 "await page.screenshot();"
        { name := "screenshot", selector := "#a", position := none,
          targetInfo := none }
        { pageAlias := "page", framePath := [], description := some "shot",
          startTime := 7 }
        (Except.ok "NEVER USED")
      = (initState,
          "await test.step(`shot`, async () => \x7b\nawait page.screenshot();\n\x7d);") := by
  rw [c10_screenshot_not_enhanced true initState 0 "await page.screenshot();"
      _ _ _ rfl]
  rfl

/-- **C9** counterexample: `enhanceWithLLM` aliases its action argument
(`let action_modified = action`) and `delete`s its `position` field before
dispatching, so the position observable after the call differs from the
one before — refuting "every field of the action value observable after
the call equals its value before". -/
theorem c9_counterexample :
    (enhanceStep initState 0 "code"
        { name := "click", selector := "#s", position := some (167, 22),
          targetInfo := none }
        { pageAlias := "page", framePath := [], description := none,
          startTime := 1 }).action.position = none
    ∧ some ((167 : Int), (22 : Int)) ≠ (none : Option (Int × Int)) := by
  refine ⟨rfl, by decide⟩

/-- **C9** (amended): on the dispatch path `enhanceWithLLM` mutates its
action argument exactly as `stripAction` describes — the observable action
after the call is the stripped one, whose `position` is deleted while
`name` and `selector` are untouched. -/
theorem c9_dispatch_mutates_action (st : EnhState) (now : Nat) (code : String)
    (action : Action) (ctx : ActionInContext)
    (hfill : ¬ action.name = "fill") (hpress : ¬ action.name = "press")
    (hcache : mapFind st.cache (actionKeyOf action ctx) = none)
    (hpending : mapFind st.pending (actionKeyOf action ctx) = none) :
    (enhanceStep st now code action ctx).action = stripAction action
    ∧ (stripAction action).name = action.name
    ∧ (stripAction action).selector = action.selector
    ∧ (stripAction action).position = none := by
  refine ⟨?_, stripAction_name action, stripAction_selector action,
    stripAction_position action⟩
  rw [enhanceStep_dispatch st now code action ctx hfill hpress hcache hpending]

/-- Witness for the amended C9 at a concrete click action carrying a
position. -/
theorem c9_dispatch_mutates_action_witness :
    (enhanceStep initState 3 "await page.click();"
        { name := "click", selector := "#w", position := some (5, 6),
          targetInfo := none }
        { pageAlias := "page", framePath := [], description := none,
          startTime := 42 }).action
      = stripAction
          { name := "click", selector := "#w", position := some (5, 6),
            targetInfo := none }
    ∧ (stripAction
          { name := "click", selector := "#w", position := some (5, 6),
            targetInfo := none }).name = "click"
    ∧ (stripAction
          { name := "click", selector := "#w", position := some (5, 6),
            targetInfo := none }).selector = "#w"
    ∧ (stripAction
          { name := "click", selector := "#w", position := some (5, 6),
            targetInfo := none }).position = none :=
  c9_dispatch_mutates_action initState 3 "await page.click();"
    { name := "click", selector := "#w", position := some (5, 6),
      targetInfo := none }
    { pageAlias := "page", framePath := [], description := none,
      startTime := 42 }
    (by decide) (by decide) rfl rfl

/-- **C8**: after a first successful call for an action key settles, a
second `enhanceWithLLM` call with the same (action name, start time) key
returns the cached extracted result synchronously, leaves the state
untouched, and the backend call count stays at one. -/
theorem c8_second_call_cached (st : EnhState) (now1 now2 : Nat)
    (code1 code2 response : String) (action : Action) (ctx : ActionInContext)
    (st2 : EnhState)
    (hfill : ¬ action.name = "fill") (hpress : ¬ action.name = "press")
    (hcache : mapFind st.cache (actionKeyOf action ctx) = none)
    (hpending : mapFind st.pending (actionKeyOf action ctx) = none)
    (hst2 : st2 = resolveStep (enhanceStep st now1 code1 action ctx).st
        st.nextPid response) :
    enhanceStep st2 now2 code2 action ctx
      = { st := st2, outcome := .value (extractEnhanced response),
          action := action, timers := [] }
    ∧ st2.backendCalls = st.backendCalls + 1 := by
  rw [enhanceStep_dispatch st now1 code1 action ctx hfill hpress hcache
      hpending] at hst2
  rw [resolveStep_plain _ _ _ _ (mapFind_mapSet_same _ _ _) rfl] at hst2
  subst hst2
  constructor
  · exact enhanceStep_cached _ _ _ _ _ _ hfill hpress
      (mapFind_mapSet_same _ _ _)
  · rfl

/-- Witness for C8 at a concrete click action: the second call returns the
extracted cached response while the call count stays one. -/
theorem c8_second_call_cached_witness :
    enhanceStep
        (resolveStep
          (enhanceStep initState 0 "codeOne"
            { name := "click", selector := "#b", position := none,
              targetInfo := none }
            { pageAlias := "page", framePath := [], description := none,
              startTime := 9 }).st 0 "```js\nenhanced body\n```") 5 "codeTwo"
        { name := "click", selector := "#b", position := none,
          targetInfo := none }
        { pageAlias := "page", framePath := [], description := none,
          startTime := 9 }
      = { st := resolveStep
            (enhanceStep initState 0 "codeOne"
              { name := "click", selector := "#b", position := none,
                targetInfo := none }
              { pageAlias := "page", framePath := [], description := none,
                startTime := 9 }).st 0 "```js\nenhanced body\n```",
          outcome := .value (extractEnhanced "```js\nenhanced body\n```"),
          action := { name := "click", selector := "#b",
                      position := none, targetInfo := none },
          timers := [] }
    ∧ (resolveStep
        (enhanceStep initState 0 "codeOne"
          { name := "click", selector := "#b", position := none,
            targetInfo := none }
          { pageAlias := "page", framePath := [], description := none,
            startTime := 9 }).st 0 "```js\nenhanced body\n```").backendCalls
      = initState.backendCalls + 1 :=
  c8_second_call_cached initState 0 5 "codeOne" "codeTwo"
    "```js\nenhanced body\n```"
    { name := "click", selector := "#b", position := none, targetInfo := none }
    { pageAlias := "page", framePath := [], description := none,
      startTime := 9 }
    _ (by decide) (by decide) rfl rfl rfl

/-- **C3**: two `enhanceWithLLM` calls sharing an action key, the second
issued before the first's backend request settles: exactly one backend
invocation happens, both callers hold the very same pending request and
observe the identical settled result, the key has exactly one pending
registration after both calls, and `Map` well-formedness of the pending
table is preserved at each step. -/
theorem c3_join_semantics (st : EnhState) (now1 now2 : Nat)
    (code1 code2 response : String) (action : Action) (ctx : ActionInContext)
    (r1 r2 : StepResult)
    (hfill : ¬ action.name = "fill") (hpress : ¬ action.name = "press")
    (hcache : mapFind st.cache (actionKeyOf action ctx) = none)
    (hpending : mapFind st.pending (actionKeyOf action ctx) = none)
    (hr1 : r1 = enhanceStep st now1 code1 action ctx)
    (hr2 : r2 = enhanceStep r1.st now2 code2 action ctx) :
    r2.st.backendCalls = st.backendCalls + 1
    ∧ r1.outcome = .pendingOn st.nextPid
    ∧ r2.outcome = .pendingOn st.nextPid
    ∧ countKey r2.st.pending (actionKeyOf action ctx) = 1
    ∧ (MapWF st.pending → MapWF r1.st.pending ∧ MapWF r2.st.pending)
    ∧ callerResult (resolveStep r2.st st.nextPid response) r1.outcome
      = callerResult (resolveStep r2.st st.nextPid response) r2.outcome
    ∧ callerResult (resolveStep r2.st st.nextPid response) r1.outcome
      = some (.ok (extractEnhanced response)) := by
  rw [enhanceStep_dispatch st now1 code1 action ctx hfill hpress hcache
      hpending] at hr1
  have h2 : enhanceStep r1.st now2 code2 action ctx
      = { st := r1.st, outcome := .pendingOn st.nextPid, action := action,
          timers := [] } := by
    apply enhanceStep_join _ _ _ _ _ _ hfill hpress
    · rw [hr1]; exact hcache
    · rw [hr1]; exact mapFind_mapSet_same _ _ _
  rw [h2] at hr2
  subst hr2
  subst hr1
  refine ⟨rfl, rfl, rfl, countKey_mapSet_same _ _ _, ?_, rfl, ?_⟩
  · intro hwf
    exact ⟨mapWF_mapSet _ _ _ hwf, mapWF_mapSet _ _ _ hwf⟩
  · rw [resolveStep_plain _ _ _
        { key := actionKeyOf action ctx, action := stripAction action,
          ctx := ctx, code := code1, cleanup := none }
        (mapFind_mapSet_same _ _ _) rfl]
    exact mapFind_mapSet_same _ _ _

/-- Witness for C3 at a concrete click action: both concurrent callers end
up with the same single request and the same extracted result. -/
theorem c3_join_semantics_witness :
    ((enhanceStep
        (enhanceStep initState 0 "codeA"
          { name := "click", selector := "#c", position := none,
            targetInfo := none }
          { pageAlias := "page", framePath := [], description := none,
            startTime := 11 }).st 1 "codeB"
        { name := "click", selector := "#c", position := none,
          targetInfo := none }
        { pageAlias := "page", framePath := [], description := none,
          startTime := 11 }).st.backendCalls = initState.backendCalls + 1)
    ∧ (enhanceStep initState 0 "codeA"
        { name := "click", selector := "#c", position := none,
          targetInfo := none }
        { pageAlias := "page", framePath := [], description := none,
          startTime := 11 }).outcome = .pendingOn initState.nextPid
    ∧ (enhanceStep
        (enhanceStep initState 0 "codeA"
          { name := "click", selector := "#c", position := none,
            targetInfo := none }
          { pageAlias := "page", framePath := [], description := none,
            startTime := 11 }).st 1 "codeB"
        { name := "click", selector := "#c", position := none,
          targetInfo := none }
        { pageAlias := "page", framePath := [], description := none,
          startTime := 11 }).outcome = .pendingOn initState.nextPid
    ∧ countKey
        (enhanceStep
          (enhanceStep initState 0 "codeA"
            { name := "click", selector := "#c", position := none,
              targetInfo := none }
            { pageAlias := "page", framePath := [], description := none,
              startTime := 11 }).st 1 "codeB"
          { name := "click", selector := "#c", position := none,
            targetInfo := none }
          { pageAlias := "page", framePath := [], description := none,
            startTime := 11 }).st.pending
        (actionKeyOf
          { name := "click", selector := "#c", position := none,
            targetInfo := none }
          { pageAlias := "page", framePath := [], description := none,
            startTime := 11 }) = 1
    ∧ (MapWF initState.pending →
        MapWF (enhanceStep initState 0 "codeA"
          { name := "click", selector := "#c", position := none,
            targetInfo := none }
          { pageAlias := "page", framePath := [], description := none,
            startTime := 11 }).st.pending
        ∧ MapWF (enhanceStep
            (enhanceStep initState 0 "codeA"
              { name := "click", selector := "#c", position := none,
                targetInfo := none }
              { pageAlias := "page", framePath := [], description := none,
                startTime := 11 }).st 1 "codeB"
            { name := "click", selector := "#c", position := none,
              targetInfo := none }
            { pageAlias := "page", framePath := [], description := none,
              startTime := 11 }).st.pending)
    ∧ callerResult
        (resolveStep
          (enhanceStep
            (enhanceStep initState 0 "codeA"
              { name := "click", selector := "#c", position := none,
                targetInfo := none }
              { pageAlias := "page", framePath := [], description := none,
                startTime := 11 }).st 1 "codeB"
            { name := "click", selector := "#c", position := none,
              targetInfo := none }
            { pageAlias := "page", framePath := [], description := none,
              startTime := 11 }).st initState.nextPid "joined result")
        (enhanceStep initState 0 "codeA"
          { name := "click", selector := "#c", position := none,
            targetInfo := none }
          { pageAlias := "page", framePath := [], description := none,
            startTime := 11 }).outcome
      = callerResult
          (resolveStep
            (enhanceStep
              (enhanceStep initState 0 "codeA"
                { name := "click", selector := "#c", position := none,
                  targetInfo := none }
                { pageAlias := "page", framePath := [], description := none,
                  startTime := 11 }).st 1 "codeB"
              { name := "click", selector := "#c", position := none,
                targetInfo := none }
              { pageAlias := "page", framePath := [], description := none,
                startTime := 11 }).st initState.nextPid "joined result")
          (enhanceStep
            (enhanceStep initState 0 "codeA"
              { name := "click", selector := "#c", position := none,
                targetInfo := none }
              { pageAlias := "page", framePath := [], description := none,
                startTime := 11 }).st 1 "codeB"
            { name := "click", selector := "#c", position := none,
              targetInfo := none }
            { pageAlias := "page", framePath := [], description := none,
              startTime := 11 }).outcome
    ∧ callerResult
        (resolveStep
          (enhanceStep
            (enhanceStep initState 0 "codeA"
              { name := "click", selector := "#c", position := none,
                targetInfo := none }
              { pageAlias := "page", framePath := [], description := none,
                startTime := 11 }).st 1 "codeB"
            { name := "click", selector := "#c", position := none,
              targetInfo := none }
            { pageAlias := "page", framePath := [], description := none,
              startTime := 11 }).st initState.nextPid "joined result")
        (enhanceStep initState 0 "codeA"
          { name := "click", selector := "#c", position := none,
            targetInfo := none }
          { pageAlias := "page", framePath := [], description := none,
            startTime := 11 }).outcome
      = some (.ok (extractEnhanced "joined result")) :=
  c3_join_semantics initState 0 1 "codeA" "codeB" "joined result"
    { name := "click", selector := "#c", position := none, targetInfo := none }
    { pageAlias := "page", framePath := [], description := none,
      startTime := 11 }
    _ _ (by decide) (by decide) rfl rfl rfl rfl

/-- **C6** counterexample: for a fence-free backend response the claim
demands the FULL RESPONSE TRIMMED, but the code only trims when a fenced
block is extracted — a fence-free response is returned verbatim.  Here a
dispatched call whose backend answers `"  x  "` settles with `"  x  "`,
not with its trim `"x"`. -/
theorem c6_counterexample :
    callerResult
        (resolveStep
          (enhanceStep initState 0 "orig"
            { name := "click", selector := "#d", position := none,
              targetInfo := none }
            { pageAlias := "page", framePath := [], description := none,
              startTime := 4 }).st 0 "  x  ")
        (enhanceStep initState 0 "orig"
          { name := "click", selector := "#d", position := none,
            targetInfo := none }
          { pageAlias := "page", framePath := [], description := none,
            startTime := 4 }).outcome
      = some (Except.ok "  x  ")
    ∧ jsTrim "  x  " = "x"
    ∧ ("  x  " : String) ≠ "x" := by
  refine ⟨rfl, rfl, by decide⟩

/-- **C6** (amended): if the response decomposes as prefix + fence opener
(optionally tagged `js` or `javascript`, then a newline) + non-empty
content + closing fence + suffix, with no backtick before or inside the
content, the extraction yields the TRIMMED CONTENT of that first block;
a response containing no triple backtick is returned UNCHANGED (not
trimmed). -/
theorem c6_extraction (pre tag content post resp : List Char)
    (hpre : ∀ c ∈ pre, ¬ c = bq)
    (hcontent : ∀ c ∈ content, ¬ c = bq)
    (htag : tag = [] ∨ tag = ['j', 's']
      ∨ tag = ['j', 'a', 'v', 'a', 's', 'c', 'r', 'i', 'p', 't'])
    (hne : content ≠ [])
    (hresp : resp
      = pre ++ (fence ++ (tag ++ '\n' :: (content ++ (fence ++ post))))) :
    extractEnhancedL resp = trimL content
    ∧ ∀ other : List Char, hasSeq fence other = false →
        extractEnhancedL other = other := by
  constructor
  · subst hresp
    have hfound := findFence_decomp pre tag content post hpre hcontent htag
    have hhas : hasSeq fence
        (pre ++ (fence ++ (tag ++ '\n' :: (content ++ (fence ++ post)))))
        = true :=
      hasSeq_append _ _ _ (hasSeq_of_seqPrefix _ _ (seqPrefix_fence_self _))
    unfold extractEnhancedL
    rw [hhas, hfound]
    cases content with
    | nil => exact absurd rfl hne
    | cons c cs => rfl
  · intro other hno
    unfold extractEnhancedL
    rw [hno]
    rfl

/-- **C4** counterexample: two rapid fill occurrences on the same element
(start times 1000 and 2000) followed by silence produce exactly one
completion dispatch, but its action key is `fill_complete_2000` — built
from the LAST occurrence's start time — not `fill_complete_1000` as the
claim ("keyed to the first occurrence's start time") demands. -/
theorem c4_counterexample :
    (runDebounceScenario initState
        [{ t := 0,
           action := { name := "fill", selector := "#q", position := none,
                       targetInfo := none },
           code := "fill-code-1",
           ctx := { pageAlias := "page", framePath := [],
                    description := none, startTime := 1000 } },
         { t := 1000,
           action := { name := "fill", selector := "#q", position := none,
                       targetInfo := none },
           code := "fill-code-2",
           ctx := { pageAlias := "page", framePath := [],
                    description := none, startTime := 2000 } }]).backendCalls
      = 1
    ∧ (mapFind
        (runDebounceScenario initState
          [{ t := 0,
             action := { name := "fill", selector := "#q", position := none,
                         targetInfo := none },
             code := "fill-code-1",
             ctx := { pageAlias := "page", framePath := [],
                      description := none, startTime := 1000 } },
           { t := 1000,
             action := { name := "fill", selector := "#q", position := none,
                         targetInfo := none },
             code := "fill-code-2",
             ctx := { pageAlias := "page", framePath := [],
                      description := none, startTime := 2000 } }]).requests
        0).map ReqInfo.key = some "fill_complete_2000"
    ∧ ("fill_complete_2000" : String) ≠ "fill_complete_1000" := by
  refine ⟨by decide, by decide, by decide⟩

/-- **C4** (amended): for a debounced kind (fill or press) every occurrence
returns its unmodified input code immediately (a synchronously resolved
value), and rapid occurrences on one element within the quiet period
followed by silence yield EXACTLY ONE completion dispatch — whose action
key is built from the LAST occurrence's start time and which carries the
LAST occurrence's action context, action and code (the timer that fires
reads the tracker entry the last occurrence overwrote). -/
theorem c4_debounce_single_dispatch (st0 : EnhState) (kind : DebKind)
    (occs : List DebOcc) (lastOcc : DebOcc) (ekey : String)
    (hname : ∀ o ∈ occs ++ [lastOcc], o.action.name = kind.kindName)
    (hekey : ∀ o ∈ occs ++ [lastOcc], elementKeyOf kind o.action o.ctx = ekey)
    (hbefore : ∀ o ∈ occs, o.t < lastOcc.t)
    (hrapid : ∀ o ∈ occs, lastOcc.t < o.t + kind.threshold)
    (hcache : mapFind st0.cache (completeKeyOf kind lastOcc.ctx) = none)
    (hpending : mapFind st0.pending (completeKeyOf kind lastOcc.ctx) = none) :
    (∀ (s : EnhState) (o : DebOcc), o ∈ occs ++ [lastOcc] →
        (enhanceStep s o.t o.code o.action o.ctx).outcome
          = Outcome.value o.code)
    ∧ (runDebounceScenario st0 (occs ++ [lastOcc])).backendCalls
        = st0.backendCalls + 1
    ∧ mapFind (runDebounceScenario st0 (occs ++ [lastOcc])).requests
        st0.nextPid
      = some { key := completeKeyOf kind lastOcc.ctx
               action := { lastOcc.action with
                           name := kind.completeName, position := none }
               ctx := lastOcc.ctx
               code := lastOcc.code
               cleanup := some (kind, ekey) } := by
  have hlaste : elementKeyOf kind lastOcc.action lastOcc.ctx = ekey :=
    hekey lastOcc (by simp)
  have hstep := runOccs_spec kind ekey lastOcc occs hname hekey st0
  set st1 := st0.setTracker kind
    (mapSet (st0.tracker kind) ekey (lastOcc.t, lastOcc.ctx)) with hst1def
  have hscen : runDebounceScenario st0 (occs ++ [lastOcc])
      = fireAll st1 ((occs ++ [lastOcc]).map (timerOf kind)) := by
    unfold runDebounceScenario
    rw [hstep]
  have hmap : (occs ++ [lastOcc]).map (timerOf kind)
      = occs.map (timerOf kind) ++ [timerOf kind lastOcc] := by simp
  have htr1 : mapFind (st1.tracker kind) ekey
      = some (lastOcc.t, lastOcc.ctx) := by
    rw [hst1def, tracker_setTracker_same]
    exact mapFind_mapSet_same _ _ _
  have hnoop : fireAll st1 (occs.map (timerOf kind)) = st1 := by
    apply fireAll_noop
    intro tm htm
    rcases List.mem_map.mp htm with ⟨o, ho, rfl⟩
    apply fireTimer_noop st1 (timerOf kind o).fireAt lastOcc.t lastOcc.ctx
    · show mapFind (st1.tracker kind) (elementKeyOf kind o.action o.ctx) = _
      rw [hekey o (List.mem_append_left _ ho)]
      exact htr1
    · show o.t + kind.threshold - lastOcc.t < kind.threshold
      have h1 := hbefore o ho
      have h2 := hrapid o ho
      omega
  have hc1 : mapFind st1.cache (completeKeyOf kind lastOcc.ctx) = none := by
    rw [hst1def, setTracker_cache]
    exact hcache
  have hp1 : mapFind st1.pending (completeKeyOf kind lastOcc.ctx) = none := by
    rw [hst1def, setTracker_pending]
    exact hpending
  have hdisp := fireTimer_dispatch st1 (timerOf kind lastOcc).fireAt lastOcc.t
    lastOcc.ctx (timerOf kind lastOcc)
    (by
      show mapFind (st1.tracker kind) (elementKeyOf kind lastOcc.action
        lastOcc.ctx) = _
      rw [hlaste]
      exact htr1)
    (by
      show kind.threshold ≤ lastOcc.t + kind.threshold - lastOcc.t
      omega)
    hc1 hp1
  refine ⟨?_, ?_, ?_⟩
  · intro s o ho
    rw [enhanceStep_debounce_eq s kind o (hname o ho)]
  · rw [hscen, hmap, fireAll_append, hnoop]
    show (fireTimer st1 (timerOf kind lastOcc).fireAt
      (timerOf kind lastOcc)).backendCalls = st0.backendCalls + 1
    rw [hdisp, hst1def]
    simp [setTracker_backendCalls]
  · rw [hscen, hmap, fireAll_append, hnoop]
    show mapFind (fireTimer st1 (timerOf kind lastOcc).fireAt
      (timerOf kind lastOcc)).requests st0.nextPid = _
    rw [hdisp]
    have hnp : st1.nextPid = st0.nextPid := by
      rw [hst1def, setTracker_nextPid]
    rw [← hlaste, ← hnp]
    exact mapFind_mapSet_same _ _ _

/-- Witness for the amended C4: the two-occurrence fill burst of the
counterexample scenario, through the general theorem. -/
theorem c4_debounce_single_dispatch_witness :
    (∀ (s : EnhState) (o : DebOcc),
      o ∈ [{ t := 0,
             action := { name := "fill", selector := "#w", position := none,
                         targetInfo := none },
             code := "w-code-1",
             ctx := { pageAlias := "page", framePath := [],
                      description := none, startTime := 500 } }]
          ++ [{ t := 700,
                action := { name := "fill", selector := "#w",
                            position := none, targetInfo := none },
                code := "w-code-2",
                ctx := { pageAlias := "page", framePath := [],
                         description := none, startTime := 900 } }] →
        (enhanceStep s o.t o.code o.action o.ctx).outcome
          = Outcome.value o.code)
    ∧ (runDebounceScenario initState
        ([{ t := 0,
            action := { name := "fill", selector := "#w", position := none,
                        targetInfo := none },
            code := "w-code-1",
            ctx := { pageAlias := "page", framePath := [],
                     description := none, startTime := 500 } }]
          ++ [{ t := 700,
                action := { name := "fill", selector := "#w",
                            position := none, targetInfo := none },
                code := "w-code-2",
                ctx := { pageAlias := "page", framePath := [],
                         description := none, startTime := 900 } }])).backendCalls
        = initState.backendCalls + 1
    ∧ mapFind (runDebounceScenario initState
        ([{ t := 0,
            action := { name := "fill", selector := "#w", position := none,
                        targetInfo := none },
            code := "w-code-1",
            ctx := { pageAlias := "page", framePath := [],
                     description := none, startTime := 500 } }]
          ++ [{ t := 700,
                action := { name := "fill", selector := "#w",
                            position := none, targetInfo := none },
                code := "w-code-2",
                ctx := { pageAlias := "page", framePath := [],
                         description := none, startTime := 900 } }])).requests
        initState.nextPid
      = some { key := completeKeyOf DebKind.fill
                 { pageAlias := "page", framePath := [],
                   description := none, startTime := 900 }
               action := { name := "fill_complete", selector := "#w",
                           position := none, targetInfo := none }
               ctx := { pageAlias := "page", framePath := [],
                        description := none, startTime := 900 }
               code := "w-code-2"
               cleanup := some (DebKind.fill, "fill__#w") } :=
  c4_debounce_single_dispatch initState DebKind.fill
    [{ t := 0,
       action := { name := "fill", selector := "#w", position := none,
                   targetInfo := none },
       code := "w-code-1",
       ctx := { pageAlias := "page", framePath := [],
                description := none, startTime := 500 } }]
    { t := 700,
      action := { name := "fill", selector := "#w", position := none,
                  targetInfo := none },
      code := "w-code-2",
      ctx := { pageAlias := "page", framePath := [],
               description := none, startTime := 900 } }
    "fill__#w"
    (by decide) (by decide) (by decide) (by decide) rfl rfl

/-- Witness for the amended C6: a `js`-tagged fenced response is extracted
and trimmed. -/
theorem c6_extraction_witness :
    extractEnhancedL
        ([] ++ (fence ++ (['j', 's'] ++ '\n' ::
          (("await page.fill it;\n").toList ++ (fence ++ [])))))
      = trimL ("await page.fill it;\n").toList
    ∧ ∀ other : List Char, hasSeq fence other = false →
        extractEnhancedL other = other :=
  c6_extraction [] ['j', 's'] ("await page.fill it;\n").toList [] _
    (by decide) (by decide) (Or.inr (Or.inl rfl)) (by decide) rfl

end PlaywrightLLM
